import Mathlib

/-!
Verification of the Sudoku mobile app (`script.js`).

The development shallowly embeds the puzzle generator (`SudokuGenerator`) and
the gameplay state machine (move engine, notes, history, hint, completion
checker) as pure Lean functions, and settles the specification claims about
them.

Modelling conventions:
* A 9×9 JS array-of-arrays grid is modelled as a total function
  `ℕ → ℕ → ℕ`; all source accesses are within bounds `< 9`.
* `Math.random()` draws are modelled as an explicit stream of natural
  numbers (`Rng`); `Math.floor(Math.random() * n)` becomes `next % n`.
* Unbounded loops (the backtracking search, the do-while in `fillBox`, the
  removal while-loop) take an explicit fuel argument; `none` models
  non-termination within the given fuel.
* DOM / localStorage / timer side effects are external collaborators and are
  not part of the state transitions (per the spec's scope section).
-/

attribute [instance] Nat.decidableBallLT

namespace Sudoku

/-- A 9×9 grid of digits, 0 = empty.  JS `grid[r][c]` becomes `g r c`. -/
def Grid : Type := ℕ → ℕ → ℕ

/-- JS `grid[r][c] = v` (functional update). -/
def setCell (g : Grid) (r c v : ℕ) : Grid :=
  fun r' c' => if r' = r ∧ c' = c then v else g r' c'

/-- The all-empty grid (`Array.from({length:9}, () => Array(9).fill(0))`). -/
def emptyGrid : Grid := fun _ _ => 0

theorem setCell_same (g : Grid) (r c v : ℕ) : setCell g r c v r c = v := by
  simp [setCell]

theorem setCell_other (g : Grid) (r c v r' c' : ℕ) (h : ¬(r' = r ∧ c' = c)) :
    setCell g r c v r' c' = g r' c' := by
  simp only [setCell, if_neg h]

/-- `SudokuGenerator.isValid(grid, row, col, num)`: the source scans the whole
row, the whole column (including the cell `(row, col)` itself) and the whole
3×3 box for an occurrence of `num`. -/
def isValid (g : Grid) (row col num : ℕ) : Bool :=
  decide (∀ x : ℕ, x < 9 → g row x ≠ num) &&
  decide (∀ x : ℕ, x < 9 → g x col ≠ num) &&
  decide (∀ i : ℕ, i < 3 → ∀ j : ℕ, j < 3 → g (row / 3 * 3 + i) (col / 3 * 3 + j) ≠ num)

/-- `SudokuGenerator.isSafeBox(rowStart, colStart, num)`. -/
def isSafeBox (g : Grid) (rowStart colStart num : ℕ) : Bool :=
  decide (∀ i : ℕ, i < 3 → ∀ j : ℕ, j < 3 → g (rowStart + i) (colStart + j) ≠ num)

/-- The random stream: each `Math.random()` draw consumes one value. -/
def Rng : Type := List ℕ

/-- Draw the next random value (0 once the modelled stream is exhausted). -/
def rngNext : Rng → ℕ × Rng
  | [] => (0, [])
  | n :: rest => (n, rest)

/-- One permutation-decoding step for the shuffle model: select the element at
index `k % length`, then recurse on the remainder. -/
def shuffleAux : ℕ → ℕ → List ℕ → List ℕ
  | 0, _, _ => []
  | _ + 1, _, [] => []
  | fuel + 1, k, l =>
    let i := k % l.length
    l.getD i 0 :: shuffleAux fuel (k / l.length) (l.eraseIdx i)

/-- Model of `[1,...,9].sort(() => Math.random() - 0.5)`: a JS sort driven by
a random comparator yields an implementation-defined permutation of the
digits, modelled here as decoding the next random value into a permutation by
repeated selection. -/
def shuffledDigits (k : ℕ) : List ℕ :=
  shuffleAux 9 k [1, 2, 3, 4, 5, 6, 7, 8, 9]

/-- The `do { num = ... } while (!this.isSafeBox(...))` loop in `fillBox`:
draw `Math.floor(Math.random()*9)+1` until it is safe for the box. -/
def drawSafeNum (g : Grid) (rowStart colStart : ℕ) : ℕ → Rng → Option (ℕ × Rng)
  | 0, _ => none
  | fuel + 1, rng =>
    let num := (rngNext rng).1 % 9 + 1
    if isSafeBox g rowStart colStart num then some (num, (rngNext rng).2)
    else drawSafeNum g rowStart colStart fuel (rngNext rng).2

/-- The nine box positions in the `i`, `j` loop order of `fillBox`. -/
def boxOffsets : List (ℕ × ℕ) :=
  [(0, 0), (0, 1), (0, 2), (1, 0), (1, 1), (1, 2), (2, 0), (2, 1), (2, 2)]

/-- Body of `SudokuGenerator.fillBox(row, col)`: fill each cell of the box
with a freshly drawn safe digit. -/
def fillBoxCells (rowStart colStart : ℕ) (fuel : ℕ) :
    List (ℕ × ℕ) → Grid → Rng → Option (Grid × Rng)
  | [], g, rng => some (g, rng)
  | (i, j) :: rest, g, rng => do
    let (num, rng') ← drawSafeNum g rowStart colStart fuel rng
    fillBoxCells rowStart colStart fuel rest (setCell g (rowStart + i) (colStart + j) num) rng'

/-- `SudokuGenerator.fillBox(row, col)`. -/
def fillBox (g : Grid) (rowStart colStart : ℕ) (rng : Rng) (fuel : ℕ) :
    Option (Grid × Rng) :=
  fillBoxCells rowStart colStart fuel boxOffsets g rng

/-- All cells in row-major order, as scanned by `fillGrid`. -/
def cellsRM : List (ℕ × ℕ) :=
  (List.range 9).flatMap (fun r => (List.range 9).map (fun c => (r, c)))

/-- The row-major scan for the first empty cell at the top of `fillGrid`. -/
def findEmpty (g : Grid) : Option (ℕ × ℕ) :=
  cellsRM.find? (fun p => g p.1 p.2 == 0)

/-- The `for (let num of nums)` loop inside `fillGrid`, abstracted over the
recursive call `fill`: on a valid candidate, place it and recurse; when the
recursion fails the cell is restored to 0 (functionally: the original `g` is
reused) and the next candidate is tried. -/
def tryNums (fill : Grid → Rng → Option Grid × Rng) :
    Grid → ℕ → ℕ → List ℕ → Rng → Option Grid × Rng
  | _, _, _, [], rng => (none, rng)
  | g, r, c, num :: rest, rng =>
    if isValid g r c num then
      match fill (setCell g r c num) rng with
      | (some g', rng') => (some g', rng')
      | (none, rng') => tryNums fill g r c rest rng'
    else tryNums fill g r c rest rng

/-- `SudokuGenerator.fillGrid(grid)`: backtracking search.  Scan row-major for
the first empty cell; if none, succeed; otherwise try the shuffled digits in
order.  The second component threads the global random stream (a failed
recursive call has still consumed entropy). -/
def fillGrid : ℕ → Grid → Rng → Option Grid × Rng
  | 0, _, rng => (none, rng)
  | fuel + 1, g, rng =>
    match findEmpty g with
    | none => (some g, rng)
    | some (r, c) =>
      tryNums (fillGrid fuel) g r c (shuffledDigits (rngNext rng).1) (rngNext rng).2

/-- The difficulty table `DIFFICULTY` (the `multiplier` field is unused by the
modelled operations). -/
structure DiffEntry where
  removed : ℕ
  multiplier : ℚ
deriving DecidableEq

/-- The keys the lookup `DIFFICULTY[difficulty]` finds on `Object.prototype`
rather than on the table itself: JS bracket lookup walks the prototype chain,
and each of these inherited members is truthy (a function, or the prototype
object itself for the last one) while having no `removed` field. -/
def objectPrototypeKeys : List String :=
  ["constructor", "hasOwnProperty", "isPrototypeOf", "propertyIsEnumerable",
   "toLocaleString", "toString", "valueOf", "__defineGetter__",
   "__defineSetter__", "__lookupGetter__", "__lookupSetter__", "__proto__"]

/-- The possible results of the JS property lookup `DIFFICULTY[difficulty]`:
an own entry of the object literal, a truthy member inherited from
`Object.prototype`, or `undefined`. -/
inductive DiffLookup where
  | own (d : DiffEntry)
  | inherited
  | absent
deriving DecidableEq

/-- `DIFFICULTY[difficulty]` as a prototype-chain lookup: an own entry for the
four tier keys, a truthy inherited member for the `Object.prototype` key
names, and `undefined` for everything else. -/
def DIFFICULTY (difficulty : String) : DiffLookup :=
  match difficulty with
  | "easy" => .own ⟨30, 1⟩
  | "medium" => .own ⟨40, 3 / 2⟩
  | "hard" => .own ⟨50, 2⟩
  | "expert" => .own ⟨55, 3⟩
  | d => if d ∈ objectPrototypeKeys then .inherited else .absent

/-- `DIFFICULTY[difficulty] ? DIFFICULTY[difficulty].removed : 30`: an own
entry is truthy and gives its removal count; an inherited member is also
truthy, but `.removed` on it is JS `undefined` (modelled as `none`); an
absent key is falsy and the ternary yields 30. -/
def attemptsFor (difficulty : String) : Option ℕ :=
  match DIFFICULTY difficulty with
  | .own d => some d.removed
  | .inherited => none
  | .absent => some 30

/-- The `while (count > 0)` removal loop of `generate`: pick a random cell;
if it is still nonzero, blank it and decrement the counter. -/
def removeLoop : ℕ → ℕ → Grid → Rng → Option (Grid × Rng)
  | _, 0, g, rng => some (g, rng)
  | 0, _ + 1, _, _ => none
  | fuel + 1, count + 1, g, rng =>
    let r := (rngNext rng).1 % 9
    let c := (rngNext (rngNext rng).2).1 % 9
    let rng2 := (rngNext (rngNext rng).2).2
    if g r c ≠ 0 then removeLoop fuel count (setCell g r c 0) rng2
    else removeLoop fuel (count + 1) g rng2

/-- `SudokuGenerator.generate(difficulty)`.  The source ignores the Boolean
returned by `fillGrid`, but when that search fails the grid retains only the
three diagonal boxes (27 nonzero cells) and a numeric removal counter of
≥ 30 can never reach zero, so the call never returns; both that divergence
and fuel exhaustion are modelled as `none`.  When `attempts` is JS
`undefined` (an inherited `Object.prototype` member was looked up), the test
`while (count > 0)` is `undefined > 0` = false: the loop body never runs and
no cell is removed. -/
def generate (difficulty : String) (rng : Rng) (boxFuel gridFuel removeFuel : ℕ) :
    Option (Grid × Grid) := do
  let (g1, rng1) ← fillBox emptyGrid 0 0 rng boxFuel
  let (g2, rng2) ← fillBox g1 3 3 rng1 boxFuel
  let (g3, rng3) ← fillBox g2 6 6 rng2 boxFuel
  let (sol, rng4) ←
    match fillGrid gridFuel g3 rng3 with
    | (some g, r) => some (g, r)
    | (none, _) => none
  let (init, _) ←
    match attemptsFor difficulty with
    | some attempts => removeLoop removeFuel attempts sol rng4
    | none => some (sol, rng4)
  pure (init, sol)

/-- Number of nonzero cells of the 9×9 region (the "filled cell" count the
spec talks about). -/
def nonzeroCount (g : Grid) : ℕ :=
  ((Finset.range 9 ×ˢ Finset.range 9).filter (fun p => g p.1 p.2 ≠ 0)).card

/-- A grid with no empty cell in the 9×9 region. -/
def isFullGrid (g : Grid) : Prop := ∀ r < 9, ∀ c < 9, g r c ≠ 0

theorem mem_cellsRM {r c : ℕ} : (r, c) ∈ cellsRM ↔ r < 9 ∧ c < 9 := by
  simp [cellsRM, List.mem_flatMap, List.mem_map, List.mem_range]

/-- If the row-major scan finds no empty cell, the grid is full. -/
theorem findEmpty_eq_none {g : Grid} (h : findEmpty g = none) : isFullGrid g := by
  intro r hr c hc
  have := List.find?_eq_none.mp h (r, c) (mem_cellsRM.mpr ⟨hr, hc⟩)
  simpa using this

/-- Any successful return of the candidate loop is a full grid, provided any
successful return of the recursive call is. -/
theorem tryNums_full (fill : Grid → Rng → Option Grid × Rng)
    (hfill : ∀ g rng g' rng', fill g rng = (some g', rng') → isFullGrid g') :
    ∀ (nums : List ℕ) (g : Grid) (r c : ℕ) (rng : Rng) (g' : Grid) (rng' : Rng),
      tryNums fill g r c nums rng = (some g', rng') → isFullGrid g' := by
  intro nums
  induction nums with
  | nil => intro g r c rng g' rng' h; simp [tryNums] at h
  | cons num rest ih =>
    intro g r c rng g' rng' h
    rw [tryNums] at h
    by_cases hv : isValid g r c num
    · rw [if_pos hv] at h
      rcases hfg : fill (setCell g r c num) rng with ⟨og, rngf⟩
      rw [hfg] at h
      cases og with
      | some gf =>
        simp at h
        obtain ⟨h1, -⟩ := h
        exact h1 ▸ hfill _ _ _ _ hfg
      | none => exact ih _ _ _ _ _ _ h
    · rw [if_neg hv] at h
      exact ih _ _ _ _ _ _ h

/-- A successful backtracking search always returns a full grid (the success
case is exactly "no empty cell remains"). -/
theorem fillGrid_full :
    ∀ (fuel : ℕ) (g : Grid) (rng : Rng) (g' : Grid) (rng' : Rng),
      fillGrid fuel g rng = (some g', rng') → isFullGrid g' := by
  intro fuel
  induction fuel with
  | zero => intro g rng g' rng' h; simp [fillGrid] at h
  | succ fuel ih =>
    intro g rng g' rng' h
    rw [fillGrid] at h
    rcases hfe : findEmpty g with - | ⟨r, c⟩
    · rw [hfe] at h
      simp at h
      exact h.1 ▸ findEmpty_eq_none hfe
    · rw [hfe] at h
      exact tryNums_full (fillGrid fuel) ih _ _ _ _ _ _ _ h

/-- Zeroing a nonzero in-range cell drops the filled-cell count by one. -/
theorem nonzeroCount_setZero {g : Grid} {r c : ℕ} (hr : r < 9) (hc : c < 9)
    (h : g r c ≠ 0) : nonzeroCount (setCell g r c 0) + 1 = nonzeroCount g := by
  classical
  have hmem : (r, c) ∈ (Finset.range 9 ×ˢ Finset.range 9).filter
      (fun p => g p.1 p.2 ≠ 0) := by
    simp [Finset.mem_filter, Finset.mem_product, Finset.mem_range, hr, hc, h]
  have hset : (Finset.range 9 ×ˢ Finset.range 9).filter
        (fun p => setCell g r c 0 p.1 p.2 ≠ 0)
      = ((Finset.range 9 ×ˢ Finset.range 9).filter (fun p => g p.1 p.2 ≠ 0)).erase
        (r, c) := by
    ext p
    simp only [Finset.mem_filter, Finset.mem_erase, Finset.mem_product,
      Finset.mem_range, setCell, Ne, Prod.ext_iff]
    constructor
    · rintro ⟨⟨h1, h2⟩, h3⟩
      by_cases hp : p.1 = r ∧ p.2 = c
      · rw [if_pos hp] at h3; exact absurd rfl h3
      · rw [if_neg hp] at h3
        exact ⟨fun hpp => hp ⟨hpp.1, hpp.2⟩, ⟨h1, h2⟩, h3⟩
    · rintro ⟨hne, ⟨h1, h2⟩, h3⟩
      refine ⟨⟨h1, h2⟩, ?_⟩
      rw [if_neg (fun hp => hne ⟨hp.1, hp.2⟩)]
      exact h3
  unfold nonzeroCount
  rw [hset, Finset.card_erase_of_mem hmem]
  have hpos : 0 < ((Finset.range 9 ×ˢ Finset.range 9).filter
      (fun p => g p.1 p.2 ≠ 0)).card := Finset.card_pos.mpr ⟨_, hmem⟩
  omega

/-- A full grid has 81 filled cells. -/
theorem nonzeroCount_of_full {g : Grid} (h : isFullGrid g) : nonzeroCount g = 81 := by
  unfold nonzeroCount
  rw [Finset.filter_true_of_mem]
  · simp
  · rintro ⟨r, c⟩ hp
    rw [Finset.mem_product, Finset.mem_range, Finset.mem_range] at hp
    exact h r hp.1 c hp.2

/-- The removal loop removes exactly `count` filled cells and only ever blanks
cells (it never changes a value to another nonzero value). -/
theorem removeLoop_spec :
    ∀ (fuel count : ℕ) (g : Grid) (rng : Rng) (g' : Grid) (rng' : Rng),
      removeLoop fuel count g rng = some (g', rng') →
      nonzeroCount g' + count = nonzeroCount g ∧
        ∀ r c, g' r c = g r c ∨ g' r c = 0 := by
  intro fuel
  induction fuel with
  | zero =>
    intro count g rng g' rng' h
    cases count with
    | zero => simp [removeLoop] at h; exact ⟨by simp [h.1], fun r c => Or.inl (by rw [h.1])⟩
    | succ count => simp [removeLoop] at h
  | succ fuel ih =>
    intro count g rng g' rng' h
    cases count with
    | zero => simp [removeLoop] at h; exact ⟨by simp [h.1], fun r c => Or.inl (by rw [h.1])⟩
    | succ count =>
      rw [removeLoop] at h
      set r0 := (rngNext rng).1 % 9 with hr0
      set c0 := (rngNext (rngNext rng).2).1 % 9 with hc0
      by_cases hnz : g r0 c0 ≠ 0
      · rw [if_pos hnz] at h
        obtain ⟨hcount, hagree⟩ := ih _ _ _ _ _ h
        have hr9 : r0 < 9 := Nat.mod_lt _ (by omega)
        have hc9 : c0 < 9 := Nat.mod_lt _ (by omega)
        have hdec := nonzeroCount_setZero hr9 hc9 hnz
        constructor
        · omega
        · intro r c
          rcases hagree r c with heq | hz
          · by_cases hp : r = r0 ∧ c = c0
            · right; rw [heq, setCell, if_pos hp]
            · left; rw [heq, setCell, if_neg hp]
          · right; exact hz
      · rw [if_neg hnz] at h
        exact ih _ _ _ _ _ h

/-- Core specification of `generate`: on success, the initial puzzle has
exactly `attemptsFor difficulty` cells removed from a full 81-cell solution
(zero cells when `attempts` is JS `undefined`), and removal only blanks
cells, so every nonzero cell of `initial` agrees with `solution`. -/
theorem generate_spec (d : String) (rng : Rng) (f1 f2 f3 : ℕ) (init sol : Grid)
    (h : generate d rng f1 f2 f3 = some (init, sol)) :
    nonzeroCount init + (attemptsFor d).getD 0 = 81 ∧
      (∀ r c, init r c ≠ 0 → init r c = sol r c) := by
  unfold generate at h
  rcases h1 : fillBox emptyGrid 0 0 rng f1 with - | ⟨g1, rng1⟩
  · simp [h1] at h
  simp only [h1, Option.bind_eq_bind, Option.some_bind] at h
  rcases h2 : fillBox g1 3 3 rng1 f1 with - | ⟨g2, rng2⟩
  · simp [h2] at h
  simp only [h2, Option.some_bind] at h
  rcases h3 : fillBox g2 6 6 rng2 f1 with - | ⟨g3, rng3⟩
  · simp [h3] at h
  simp only [h3, Option.some_bind] at h
  rcases h4 : fillGrid f2 g3 rng3 with ⟨og, rng4⟩
  rw [h4] at h
  cases og with
  | none => simp at h
  | some gfull =>
    simp only [Option.bind_eq_bind, Option.some_bind] at h
    have hfull := fillGrid_full f2 g3 rng3 _ _ h4
    rcases ha : attemptsFor d with - | attempts <;> rw [ha] at h
    · simp only [Option.some_bind, pure, Option.some.injEq, Prod.mk.injEq] at h
      obtain ⟨hi, hs⟩ := h
      subst hi hs
      refine ⟨?_, fun r c _ => rfl⟩
      rw [Option.getD_none, nonzeroCount_of_full hfull]
    · rcases h5 : removeLoop f3 attempts gfull rng4 with - | ⟨g5, rng5⟩
      · simp [h5] at h
      simp only [h5, Option.some_bind] at h
      simp only [pure, Option.some.injEq, Prod.mk.injEq] at h
      obtain ⟨hi, hs⟩ := h
      subst hi hs
      obtain ⟨hcount, hagree⟩ := removeLoop_spec f3 _ _ _ _ _ h5
      refine ⟨?_, ?_⟩
      · rw [Option.getD_some, ← nonzeroCount_of_full hfull]; exact hcount
      · intro r c hnz
        rcases hagree r c with heq | hz
        · exact heq
        · exact absurd hz hnz

/-- C1: for every supported difficulty tier, a successful `generate(tier)`
returns `{initial, solution}` where the number of nonzero cells of `initial`
is 81 minus the tier's removal count (easy=30, medium=40, hard=50, expert=55),
and every nonzero cell of `initial` equals the corresponding cell of
`solution`. -/
theorem generate_tier_spec (d : String) (rng : Rng) (f1 f2 f3 : ℕ)
    (init sol : Grid) (h : generate d rng f1 f2 f3 = some (init, sol)) :
    (∀ r c, init r c ≠ 0 → init r c = sol r c) ∧
    (d = "easy" → nonzeroCount init = 81 - 30) ∧
    (d = "medium" → nonzeroCount init = 81 - 40) ∧
    (d = "hard" → nonzeroCount init = 81 - 50) ∧
    (d = "expert" → nonzeroCount init = 81 - 55) := by
  obtain ⟨hcount, hagree⟩ := generate_spec d rng f1 f2 f3 init sol h
  refine ⟨hagree, ?_, ?_, ?_, ?_⟩ <;> rintro rfl
  · rw [show (attemptsFor "easy").getD 0 = 30 from rfl] at hcount; omega
  · rw [show (attemptsFor "medium").getD 0 = 40 from rfl] at hcount; omega
  · rw [show (attemptsFor "hard").getD 0 = 50 from rfl] at hcount; omega
  · rw [show (attemptsFor "expert").getD 0 = 55 from rfl] at hcount; omega

/-- A concrete full solution grid used to drive the generator witnesses: the
standard cyclic pattern, valid in every row, column and box. -/
def exSol : Grid := fun r c => (3 * (r % 3) + r / 3 + c) % 9 + 1

/-- Random values for the three diagonal boxes: each draw immediately produces
the digit `exSol` wants at that cell, so the do-while never rejects. -/
def wDiag : List ℕ :=
  [0, 3, 6].flatMap fun b => boxOffsets.map fun p => exSol (b + p.1) (b + p.2) - 1

/-- Random values for the backtracking search: at each empty cell (row-major,
off the diagonal boxes) the decoded shuffle starts with the digit `exSol`
wants there, so the search never backtracks. -/
def wFill : List ℕ :=
  cellsRM.filterMap fun p =>
    if p.1 / 3 = p.2 / 3 then none else some (exSol p.1 p.2 - 1)

/-- Random values for the removal loop: the first 30 cells in row-major order,
all nonzero when first drawn. -/
def wRemove : List ℕ := (List.range 30).flatMap fun m => [m / 9, m % 9]

/-- A random stream on which `generate` terminates. -/
def wRng : Rng := wDiag ++ wFill ++ wRemove

set_option maxRecDepth 10000 in
theorem generate_tier_spec_witness :
    nonzeroCount ((generate "easy" wRng 9 60 40).getD (emptyGrid, emptyGrid)).1
      = 81 - 30 := by
  obtain ⟨p, hp⟩ := Option.isSome_iff_exists.mp
    (show (generate "easy" wRng 9 60 40).isSome = true from by decide)
  rw [hp]
  exact (generate_tier_spec "easy" wRng 9 60 40 p.1 p.2 hp).2.1 rfl

/-- C10 (amended): `DIFFICULTY[difficulty]` is a JS prototype-chain lookup.
For an unsupported argument on which the lookup is `undefined`, the ternary
falls back to removing exactly 30 cells and `generate` behaves exactly like
the easy tier (51 nonzero cells on success).  But for an unsupported argument
that names a truthy inherited `Object.prototype` member (e.g. "constructor"),
`attempts` is `undefined`, the removal `while`-loop never runs, and a
successful `generate` returns an initial grid with all 81 cells filled —
not 51. -/
theorem generate_unknown_tier :
    (∀ (d : String) (rng : Rng) (f1 f2 f3 : ℕ), DIFFICULTY d = DiffLookup.absent →
      generate d rng f1 f2 f3 = generate "easy" rng f1 f2 f3) ∧
    (∀ (d : String) (rng : Rng) (f1 f2 f3 : ℕ) (init sol : Grid),
      DIFFICULTY d = DiffLookup.absent →
      generate d rng f1 f2 f3 = some (init, sol) → nonzeroCount init = 51) ∧
    (∀ (d : String) (rng : Rng) (f1 f2 f3 : ℕ) (init sol : Grid),
      DIFFICULTY d = DiffLookup.inherited →
      generate d rng f1 f2 f3 = some (init, sol) → nonzeroCount init = 81) := by
  have hfallback : ∀ d : String, DIFFICULTY d = DiffLookup.absent →
      attemptsFor d = some 30 := by
    intro d hd
    rw [attemptsFor, hd]
  have hinh : ∀ d : String, DIFFICULTY d = DiffLookup.inherited →
      attemptsFor d = none := by
    intro d hd
    rw [attemptsFor, hd]
  refine ⟨?_, ?_, ?_⟩
  · intro d rng f1 f2 f3 hd
    unfold generate
    rw [hfallback d hd, show attemptsFor "easy" = some 30 from rfl]
  · intro d rng f1 f2 f3 init sol hd h
    have hcount := (generate_spec d rng f1 f2 f3 init sol h).1
    rw [hfallback d hd, Option.getD_some] at hcount
    omega
  · intro d rng f1 f2 f3 init sol hd h
    have hcount := (generate_spec d rng f1 f2 f3 init sol h).1
    rw [hinh d hd, Option.getD_none] at hcount
    omega

set_option maxRecDepth 10000 in
theorem generate_unknown_tier_witness :
    DIFFICULTY "bogus" = DiffLookup.absent ∧
    nonzeroCount ((generate "bogus" wRng 9 60 40).getD (emptyGrid, emptyGrid)).1
      = 51 := by
  refine ⟨rfl, ?_⟩
  obtain ⟨p, hp⟩ := Option.isSome_iff_exists.mp
    (show (generate "bogus" wRng 9 60 40).isSome = true from by decide)
  rw [hp]
  exact generate_unknown_tier.2.1 "bogus" wRng 9 60 40 p.1 p.2 rfl hp

set_option maxRecDepth 10000 in
/-- C10 counterexample: "constructor" is not one of the four supported tiers,
yet on a random stream where the build succeeds, `generate "constructor"`
returns an initial grid with all 81 cells still filled — not the claimed 51:
`DIFFICULTY['constructor']` finds the truthy inherited
`Object.prototype.constructor`, so `attempts` is `undefined` and
`while (count > 0)` never runs. -/
theorem generate_unknown_tier_counterexample :
    ("constructor" ≠ "easy" ∧ "constructor" ≠ "medium" ∧
      "constructor" ≠ "hard" ∧ "constructor" ≠ "expert") ∧
    (generate "constructor" wRng 9 60 40).isSome = true ∧
    nonzeroCount ((generate "constructor" wRng 9 60 40).getD
      (emptyGrid, emptyGrid)).1 = 81 := by
  exact ⟨by decide, by decide, by decide⟩

/-- C2 (amended): `isValid(grid, row, col, digit)` returns true iff `digit`
appears nowhere in the row, nowhere in the column and nowhere in the 3×3 box
containing `(row, col)` — including at `(row, col)` itself: the source scans
the full row, column and box without skipping the queried cell. -/
theorem isValid_iff (g : Grid) (row col num : ℕ) :
    isValid g row col num = true ↔
      (∀ x : ℕ, x < 9 → g row x ≠ num) ∧
      (∀ x : ℕ, x < 9 → g x col ≠ num) ∧
      (∀ i : ℕ, i < 3 → ∀ j : ℕ, j < 3 →
        g (row / 3 * 3 + i) (col / 3 * 3 + j) ≠ num) := by
  simp [isValid, Bool.and_eq_true, decide_eq_true_eq, and_assoc]

/-- A grid whose only nonzero cell is a 5 at (0,0). -/
def c2grid : Grid := setCell emptyGrid 0 0 5

/-- C2 counterexample: the only occurrence of digit 5 in row 0, column 0 and
the top-left box of `c2grid` is at `(0,0)` itself, so the claim predicts
`isValid c2grid 0 0 5 = true`; the source returns false. -/
theorem isValid_counterexample :
    (∀ x : ℕ, x < 9 → x ≠ 0 → c2grid 0 x ≠ 5) ∧
    (∀ x : ℕ, x < 9 → x ≠ 0 → c2grid x 0 ≠ 5) ∧
    (∀ i : ℕ, i < 3 → ∀ j : ℕ, j < 3 → ¬(i = 0 ∧ j = 0) → c2grid i j ≠ 5) ∧
    c2grid 0 0 = 5 ∧
    isValid c2grid 0 0 5 = false := by
  decide

/-! ## The gameplay state machine -/

/-- The 9×9 note structure `state.notes` (JS arrays of digits per cell). -/
def Notes : Type := ℕ → ℕ → List ℕ

/-- Functional update of one cell's note list. -/
def setNote (n : Notes) (r c : ℕ) (v : List ℕ) : Notes :=
  fun r' c' => if r' = r ∧ c' = c then v else n r' c'

/-- A history entry `{type, r, c, val, prevVal}` (only `type: 'input'` is ever
pushed by the source). -/
structure HistEntry where
  atype : String
  r : ℕ
  c : ℕ
  val : ℕ
  prevVal : ℕ
deriving DecidableEq

/-- The global `state` object (the DOM-only fields `timerInterval` is not
modelled; `score` is a JS number, modelled as ℤ). -/
structure GameState where
  grid : Grid
  solution : Grid
  initial : Grid
  notes : Notes
  selectedCell : Option (ℕ × ℕ)
  score : ℤ
  timer : ℕ
  mistakes : ℕ
  level : String
  isNoteMode : Bool
  history : List HistEntry
  isPaused : Bool
  isGameOver : Bool

/-- `HINT_COST`. -/
def HINT_COST : ℤ := 50

/-- `MAX_MISTAKES`. -/
def MAX_MISTAKES : ℕ := 3

/-- `gameOver(isWin)`: sets the game-over flag; stopping the timer interval,
clearing the persisted snapshot, the modal and the high-score write are
external side effects. -/
def gameOver (s : GameState) : GameState :=
  { s with isGameOver := true }

/-- The body of `checkCompletion()` before the unconditional bonus: if the
grid is full (`isFull`) and matches the solution (`isCorrect`), declare the
win. -/
def completionCheck (s : GameState) : GameState :=
  if decide (∀ r : ℕ, r < 9 → ∀ c : ℕ, c < 9 → s.grid r c ≠ 0) then
    (if decide (∀ r : ℕ, r < 9 → ∀ c : ℕ, c < 9 → s.grid r c = s.solution r c)
      then gameOver s else s)
  else s

/-- `checkCompletion()`: run the completion check, then award the 10-point
bonus in every case (the `state.score += 10` line runs unconditionally). -/
def checkCompletion (s : GameState) : GameState :=
  { completionCheck s with score := (completionCheck s).score + 10 }

/-- `handleMistake(r, c)`: increment the mistake count; at the maximum,
transition to loss, otherwise deduct the 50-point penalty floored at 0. -/
def handleMistake (s : GameState) : GameState :=
  if s.mistakes + 1 ≥ MAX_MISTAKES then gameOver { s with mistakes := s.mistakes + 1 }
  else { s with mistakes := s.mistakes + 1, score := max 0 (s.score - 50) }

/-- `addToHistory(action)`: drop the oldest entry when the stack length
exceeds 20 (`shift`), then push. -/
def addToHistory (a : HistEntry) (s : GameState) : GameState :=
  { s with history :=
      (if s.history.length > 20 then s.history.drop 1 else s.history) ++ [a] }

/-- `toggleNoteValue(r, c, num)` restricted to the note matrix: toggle
membership (JS `indexOf`/`splice` removes the first occurrence, `push`
appends). -/
def toggleNoteValue (n : Notes) (r c num : ℕ) : Notes :=
  if num ∈ n r c then setNote n r c ((n r c).erase num)
  else setNote n r c (n r c ++ [num])

/-- `removeNote(r, c, num)` restricted to the note matrix: remove the first
occurrence of `num`, if any. -/
def removeNote (n : Notes) (r c num : ℕ) : Notes :=
  setNote n r c ((n r c).erase num)

/-- `clearNotesForMove(r, c, num)` restricted to the note matrix: clear the
placed cell's notes, then strip `num` from the row, then from the column,
then from the box (innermost to outermost: the cell reset, the row loop, the
column loop, the nested box loops). -/
def clearNotesForMove (r c num : ℕ) (n : Notes) : Notes :=
  (List.range 3).foldl
    (fun m i => (List.range 3).foldl
      (fun m' j => removeNote m' (r / 3 * 3 + i) (c / 3 * 3 + j) num) m)
    ((List.range 9).foldl (fun m i => removeNote m i c num)
      ((List.range 9).foldl (fun m i => removeNote m r i num)
        (setNote n r c [])))

/-- `selectCell(r, c)`. -/
def selectCell (r c : ℕ) (s : GameState) : GameState :=
  if s.isGameOver then s else { s with selectedCell := some (r, c) }

/-- The history push plus grid write shared by every non-no-op normal-mode
input: `addToHistory({type:'input', r, c, val:num, prevVal})` followed by
`state.grid[r][c] = num`. -/
def applyDigit (r c num : ℕ) (s : GameState) : GameState :=
  { addToHistory ⟨"input", r, c, num, s.grid r c⟩ s with
      grid := setCell s.grid r c num }

/-- `inputNumber(num)`: the full normal-mode / note-mode input path
(`renderBoard` and `saveGame` are external side effects). -/
def inputNumber (num : ℕ) (s : GameState) : GameState :=
  if s.isGameOver then s else
  match s.selectedCell with
  | none => s
  | some (r, c) =>
    if s.initial r c ≠ 0 then s
    else if s.isNoteMode then { s with notes := toggleNoteValue s.notes r c num }
    else if s.grid r c = num then s
    else if num ≠ 0 then
      if num ≠ s.solution r c then handleMistake (applyDigit r c num s)
      else
        { checkCompletion (applyDigit r c num s) with
            notes := clearNotesForMove r c num
              (checkCompletion (applyDigit r c num s)).notes }
    else applyDigit r c num s

/-- `erase()`: clear the selected cell via `inputNumber(0)`. -/
def erase (s : GameState) : GameState :=
  if s.isGameOver then s else
  match s.selectedCell with
  | none => s
  | some (r, c) => if s.initial r c ≠ 0 then s else inputNumber 0 s

/-- `toggleNotes()`: flips note mode — with no game-over guard. -/
def toggleNotes (s : GameState) : GameState :=
  { s with isNoteMode := !s.isNoteMode }

/-- `undo()`: pop the most recent entry, write `prevVal` back (for `input`
entries), and re-select that cell. -/
def undo (s : GameState) : GameState :=
  if s.history.length = 0 ∨ s.isGameOver then s else
  match s.history.getLast? with
  | none => s
  | some a =>
    if a.atype = "input" then
      selectCell a.r a.c
        { s with history := s.history.dropLast,
                 grid := setCell s.grid a.r a.c a.prevVal }
    else selectCell a.r a.c { s with history := s.history.dropLast }

/-- `useHint()`: requires enough score and a selected, empty cell; deducts
the hint cost, writes the solution digit into `grid` and `initial` (promoting
the cell to fixed), then runs the completion checker. -/
def useHint (s : GameState) : GameState :=
  if s.isGameOver then s else
  if s.score < HINT_COST then s else
  match s.selectedCell with
  | none => s
  | some (r, c) =>
    if s.grid r c ≠ 0 then s
    else
      checkCompletion
        { s with score := s.score - HINT_COST,
                 grid := setCell s.grid r c (s.solution r c),
                 initial := setCell s.initial r c (s.solution r c) }

/-- `startGame(level)` given the generator's output (`selectedCell` and
`isNoteMode` are the only fields `startGame` does not reset). -/
def startState (level : String) (init sol : Grid) (sel : Option (ℕ × ℕ))
    (noteMode : Bool) : GameState where
  grid := init
  solution := sol
  initial := init
  notes := fun _ _ => []
  selectedCell := sel
  score := 0
  timer := 0
  mistakes := 0
  level := level
  isNoteMode := noteMode
  history := []
  isPaused := false
  isGameOver := false

/-- What `generate` guarantees about the pair handed to `startGame`: agreement
of the dealt cells with the solution, and solution digits in 1..9. -/
def validPair (init sol : Grid) : Prop :=
  (∀ r : ℕ, r < 9 → ∀ c : ℕ, c < 9 → init r c ≠ 0 → init r c = sol r c) ∧
  (∀ r : ℕ, r < 9 → ∀ c : ℕ, c < 9 → 1 ≤ sol r c ∧ sol r c ≤ 9)

/-- The player-triggered operations of the session state machine. -/
inductive Op where
  | select (r c : ℕ)
  | inputN (n : ℕ)
  | eraseOp
  | undoOp
  | hintOp
  | notesOp
deriving DecidableEq

/-- Interpretation of one operation. -/
def applyOp : Op → GameState → GameState
  | .select r c, s => selectCell r c s
  | .inputN n, s => inputNumber n s
  | .eraseOp, s => erase s
  | .undoOp, s => undo s
  | .hintOp, s => useHint s
  | .notesOp, s => toggleNotes s

/-- UI-level constraints on an operation: cells are clicked on the 9×9 board
and the numpad offers digits 1..9. -/
def opOk : Op → Bool
  | .select r c => decide (r < 9) && decide (c < 9)
  | .inputN n => decide (1 ≤ n) && decide (n ≤ 9)
  | _ => true

/-- Session states reachable from a fresh game by player operations. -/
inductive Reachable : GameState → Prop where
  | start (level : String) (init sol : Grid) (sel : Option (ℕ × ℕ))
      (noteMode : Bool) (hv : validPair init sol) :
      Reachable (startState level init sol sel noteMode)
  | step (op : Op) (s : GameState) (hok : opOk op = true) (hs : Reachable s) :
      Reachable (applyOp op s)

/-- Run a list of operations left to right. -/
def runOps (s : GameState) : List Op → GameState
  | [] => s
  | op :: l => runOps (applyOp op s) l

theorem reachable_runOps {s : GameState} (hs : Reachable s) :
    ∀ l : List Op, (∀ op ∈ l, opOk op = true) → Reachable (runOps s l) := by
  intro l
  induction l generalizing s with
  | nil => intro _; exact hs
  | cons op l ih =>
    intro hok
    exact ih (Reachable.step op s (hok op (by simp)) hs)
      (fun o ho => hok o (by simp [ho]))

/-- C3 (amended): a normal-mode move that enters a wrong digit on a non-fixed
cell increments the mistake count; when the new count is still below the
maximum of 3 the fixed 50-point penalty is deducted (floored at 0) and the
session continues; the move that brings the count to 3 transitions to
game-over/loss WITHOUT deducting the penalty — so three wrong digits in a row
reduce the score by up to 100, not 150. -/
theorem mistake_move_spec (s : GameState) (r c num : ℕ)
    (hgo : s.isGameOver = false) (hsel : s.selectedCell = some (r, c))
    (hfix : s.initial r c = 0) (hnm : s.isNoteMode = false)
    (hprev : s.grid r c ≠ num) (hnz : num ≠ 0)
    (hwrong : num ≠ s.solution r c) :
    (inputNumber num s).mistakes = s.mistakes + 1 ∧
    (s.mistakes + 1 ≥ 3 →
      (inputNumber num s).isGameOver = true ∧
      (inputNumber num s).score = s.score) ∧
    (s.mistakes + 1 < 3 →
      (inputNumber num s).isGameOver = false ∧
      (inputNumber num s).score = max 0 (s.score - 50)) := by
  have hin : inputNumber num s = handleMistake (applyDigit r c num s) := by
    simp [inputNumber, hgo, hsel, hfix, hnm, hprev, hnz, hwrong]
  rw [hin]
  unfold handleMistake MAX_MISTAKES gameOver
  by_cases hm : s.mistakes + 1 ≥ 3
  · rw [if_pos (show (applyDigit r c num s).mistakes + 1 ≥ 3 from hm)]
    exact ⟨rfl, fun _ => ⟨rfl, rfl⟩, fun hlt => absurd hm (by omega)⟩
  · rw [if_neg (show ¬ (applyDigit r c num s).mistakes + 1 ≥ 3 from hm)]
    exact ⟨rfl, fun hge => absurd hge hm, fun _ => ⟨hgo, rfl⟩⟩

/-- A concrete dealt puzzle for session scenarios: `exSol` with the first
eight cells of row 0 blanked. -/
def exInit : Grid := fun r c => if r = 0 ∧ c < 8 then 0 else exSol r c

theorem exPair_valid : validPair exInit exSol := by
  refine ⟨?_, ?_⟩ <;> decide

/-- A fresh session on the concrete example puzzle. -/
def startEx : GameState := startState "easy" exInit exSol none false

theorem mistake_move_spec_witness :
    (inputNumber 5 (startState "easy" exInit exSol (some (0, 0)) false)).mistakes
      = (startState "easy" exInit exSol (some (0, 0)) false).mistakes + 1 :=
  (mistake_move_spec (startState "easy" exInit exSol (some (0, 0)) false) 0 0 5
    rfl rfl (by decide) rfl (by decide) (by decide) (by decide)).1

/-- The session just before a third wrong digit: two mistakes already made,
then five correct placements bring the score to 50. -/
def c3pre : GameState :=
  runOps startEx
    [.select 0 0, .inputN 5, .inputN 6,
     .select 0 1, .inputN 2, .select 0 2, .inputN 3, .select 0 3, .inputN 4,
     .select 0 4, .inputN 5, .select 0 5, .inputN 6, .select 0 6]

/-- C3 counterexample: in a reachable session with 2 mistakes and score 50,
the wrong move that brings the mistake count to the maximum of 3 transitions
to game-over but does NOT deduct the 50-point penalty (the claim predicts a
post-score of 0; the code leaves 50). -/
theorem mistake_move_counterexample :
    Reachable c3pre ∧
    (c3pre.isGameOver = false ∧ c3pre.isNoteMode = false ∧
      c3pre.selectedCell = some (0, 6) ∧ c3pre.initial 0 6 = 0 ∧
      c3pre.grid 0 6 = 0 ∧ (9 : ℕ) ≠ c3pre.solution 0 6 ∧
      c3pre.mistakes = 2 ∧ c3pre.score = 50 ∧
      (inputNumber 9 c3pre).mistakes = 3 ∧
      (inputNumber 9 c3pre).isGameOver = true ∧
      (inputNumber 9 c3pre).score = 50) := by
  refine ⟨?_, by decide⟩
  exact reachable_runOps (Reachable.start _ _ _ _ _ exPair_valid) _ (by decide)

/-- Projections of `checkCompletion`: it only ever touches `score` and the
game-over flag, and always adds the 10-point bonus to the score. -/
theorem checkCompletion_fields (s : GameState) :
    (checkCompletion s).score = s.score + 10 ∧
    (checkCompletion s).grid = s.grid ∧
    (checkCompletion s).initial = s.initial ∧
    (checkCompletion s).notes = s.notes ∧
    (checkCompletion s).history = s.history ∧
    (checkCompletion s).mistakes = s.mistakes ∧
    (checkCompletion s).solution = s.solution ∧
    (checkCompletion s).selectedCell = s.selectedCell ∧
    (checkCompletion s).isNoteMode = s.isNoteMode := by
  unfold checkCompletion completionCheck gameOver
  split
  · split <;> exact ⟨rfl, rfl, rfl, rfl, rfl, rfl, rfl, rfl, rfl⟩
  · exact ⟨rfl, rfl, rfl, rfl, rfl, rfl, rfl, rfl, rfl⟩

/-- C4 (amended): with score ≥ 50, a selected cell that is empty, `useHint()`
succeeds: it deducts the 50-point hint cost, writes the solution digit into
the cell, and promotes the cell to fixed by writing that digit into
`initial`; but it then runs the completion checker, which unconditionally
awards the 10-point correct-move bonus, so the post-score is
pre-score − 50 + 10 = pre-score − 40, not pre-score − 50. -/
theorem useHint_spec (s : GameState) (r c : ℕ)
    (hgo : s.isGameOver = false) (hsc : HINT_COST ≤ s.score)
    (hsel : s.selectedCell = some (r, c)) (hempty : s.grid r c = 0) :
    (useHint s).score = s.score - 50 + 10 ∧
    (useHint s).grid r c = s.solution r c ∧
    (useHint s).initial r c = s.solution r c := by
  have hnot : ¬ s.score < HINT_COST := not_lt.mpr hsc
  have hne : ¬ s.grid r c ≠ 0 := fun h => h hempty
  have hu : useHint s = checkCompletion
      { s with score := s.score - HINT_COST,
               grid := setCell s.grid r c (s.solution r c),
               initial := setCell s.initial r c (s.solution r c) } := by
    simp [useHint, hgo, hnot, hsel, hne]
  obtain ⟨hscf, hgf, hif, -⟩ := checkCompletion_fields
    { s with score := s.score - HINT_COST,
             grid := setCell s.grid r c (s.solution r c),
             initial := setCell s.initial r c (s.solution r c) }
  rw [hu, hscf, hgf, hif]
  refine ⟨rfl, ?_, ?_⟩ <;> simp [setCell]

theorem useHint_spec_witness :
    (useHint { startState "easy" exInit exSol (some (0, 0)) false with
        score := 60 }).score = 60 - 50 + 10 :=
  (useHint_spec
    { startState "easy" exInit exSol (some (0, 0)) false with score := 60 }
    0 0 rfl (by decide) rfl (by decide)).1

/-- The session just before a hint: five correct placements brought the score
to exactly 50, and the empty cell (0,6) is selected. -/
def c4pre : GameState :=
  runOps startEx
    [.select 0 1, .inputN 2, .select 0 2, .inputN 3, .select 0 3, .inputN 4,
     .select 0 4, .inputN 5, .select 0 5, .inputN 6, .select 0 6]

/-- C4 counterexample: in a reachable session with score exactly 50 and an
empty selected cell, `useHint()` leaves a score of 10, not the
pre-score − 50 = 0 the claim requires (the completion checker's
unconditional +10 bonus runs after the deduction). -/
theorem useHint_counterexample :
    Reachable c4pre ∧
    (c4pre.score = 50 ∧ c4pre.selectedCell = some (0, 6) ∧
      c4pre.grid 0 6 = 0 ∧ c4pre.isGameOver = false ∧
      (useHint c4pre).score = 10 ∧
      ¬ (useHint c4pre).score = c4pre.score - 50) := by
  refine ⟨?_, by decide⟩
  exact reachable_runOps (Reachable.start _ _ _ _ _ exPair_valid) _ (by decide)

theorem setNote_eq (n : Notes) (r c : ℕ) (v : List ℕ) (p q : ℕ) :
    setNote n r c v p q = if p = r ∧ q = c then v else n p q := rfl

theorem removeNote_eq (n : Notes) (r c num p q : ℕ) :
    removeNote n r c num p q =
      if p = r ∧ q = c then (n r c).erase num else n p q := rfl

/-- Folding `removeNote` over a duplicate-free list of cells erases the digit
exactly once at each listed cell and leaves every other cell unchanged. -/
theorem foldl_removeNote_pairs (num : ℕ) :
    ∀ (l : List (ℕ × ℕ)), l.Nodup → ∀ (n : Notes) (p q : ℕ),
      (l.foldl (fun m t => removeNote m t.1 t.2 num) n) p q =
        if (p, q) ∈ l then (n p q).erase num else n p q := by
  intro l
  induction l with
  | nil => intro _ n p q; simp
  | cons a l ih =>
    intro hnd n p q
    rw [List.foldl_cons, ih hnd.of_cons]
    by_cases h1 : (p, q) ∈ l
    · rw [if_pos h1, if_pos (List.mem_cons_of_mem a h1)]
      have hne : ¬(p = a.1 ∧ q = a.2) := by
        rintro ⟨hp, hq⟩
        exact (List.nodup_cons.mp hnd).1
          (by rwa [show a = (p, q) by rw [hp, hq]])
      rw [removeNote_eq, if_neg hne]
    · by_cases h2 : p = a.1 ∧ q = a.2
      · rw [if_neg h1, removeNote_eq, if_pos h2,
          if_pos (by rw [List.mem_cons]; left; rw [Prod.ext_iff]; exact h2)]
        rw [h2.1, h2.2]
      · rw [if_neg h1, removeNote_eq, if_neg h2,
          if_neg (by
            rw [List.mem_cons]
            rintro (h | h)
            · exact h2 (Prod.ext_iff.mp h)
            · exact h1 h)]

/-- The row loop of `clearNotesForMove`. -/
theorem foldl_removeNote_row (num r : ℕ) (n : Notes) (p q : ℕ) :
    ((List.range 9).foldl (fun m i => removeNote m r i num) n) p q =
      if p = r ∧ q < 9 then (n p q).erase num else n p q := by
  have hnd : ((List.range 9).map (fun i => (r, i))).Nodup :=
    (List.nodup_range 9).map (fun x y h => (Prod.ext_iff.mp h).2)
  have h := foldl_removeNote_pairs num ((List.range 9).map (fun i => (r, i)))
    hnd n p q
  rw [List.foldl_map] at h
  rw [h]
  by_cases hc : p = r ∧ q < 9
  · rw [if_pos (by
      simp only [List.mem_map, List.mem_range, Prod.mk.injEq]
      exact ⟨q, hc.2, hc.1.symm, rfl⟩), if_pos hc]
  · rw [if_neg (by
      simp only [List.mem_map, List.mem_range, Prod.mk.injEq]
      rintro ⟨i, hi, h1, h2⟩
      exact hc ⟨h1.symm, h2 ▸ hi⟩), if_neg hc]

/-- The column loop of `clearNotesForMove`. -/
theorem foldl_removeNote_col (num c : ℕ) (n : Notes) (p q : ℕ) :
    ((List.range 9).foldl (fun m i => removeNote m i c num) n) p q =
      if p < 9 ∧ q = c then (n p q).erase num else n p q := by
  have hnd : ((List.range 9).map (fun i => (i, c))).Nodup :=
    (List.nodup_range 9).map (fun x y h => (Prod.ext_iff.mp h).1)
  have h := foldl_removeNote_pairs num ((List.range 9).map (fun i => (i, c)))
    hnd n p q
  rw [List.foldl_map] at h
  rw [h]
  by_cases hc : p < 9 ∧ q = c
  · rw [if_pos (by
      simp only [List.mem_map, List.mem_range, Prod.mk.injEq]
      exact ⟨p, hc.1, rfl, hc.2.symm⟩), if_pos hc]
  · rw [if_neg (by
      simp only [List.mem_map, List.mem_range, Prod.mk.injEq]
      rintro ⟨i, hi, h1, h2⟩
      exact hc ⟨h1 ▸ hi, h2.symm⟩), if_neg hc]

/-- One row of the box loop of `clearNotesForMove`. -/
theorem foldl_removeNote_boxRow (num R C i : ℕ) (m : Notes) (p q : ℕ) :
    ((List.range 3).foldl (fun m' j => removeNote m' (R + i) (C + j) num) m) p q =
      if p = R + i ∧ (C ≤ q ∧ q < C + 3) then (m p q).erase num else m p q := by
  have hnd : ((List.range 3).map (fun j => (R + i, C + j))).Nodup :=
    (List.nodup_range 3).map (fun x y h => by
      have := (Prod.ext_iff.mp h).2
      omega)
  have h := foldl_removeNote_pairs num ((List.range 3).map (fun j => (R + i, C + j)))
    hnd m p q
  rw [List.foldl_map] at h
  rw [h]
  by_cases hc : p = R + i ∧ (C ≤ q ∧ q < C + 3)
  · rw [if_pos (by
      simp only [List.mem_map, List.mem_range, Prod.mk.injEq]
      exact ⟨q - C, by omega, hc.1.symm, by omega⟩), if_pos hc]
  · rw [if_neg (by
      simp only [List.mem_map, List.mem_range, Prod.mk.injEq]
      rintro ⟨j, hj, h1, h2⟩
      exact hc ⟨h1.symm, by omega⟩), if_neg hc]

/-- The full box loop of `clearNotesForMove`. -/
theorem foldl_removeNote_box (num R C : ℕ) (n : Notes) (p q : ℕ) :
    ((List.range 3).foldl (fun m i => (List.range 3).foldl
        (fun m' j => removeNote m' (R + i) (C + j) num) m) n) p q =
      if (R ≤ p ∧ p < R + 3) ∧ (C ≤ q ∧ q < C + 3) then (n p q).erase num
      else n p q := by
  have houter : ∀ (F : Notes → ℕ → Notes) (m : Notes),
      (List.range 3).foldl F m = F (F (F m 0) 1) 2 := fun F m => rfl
  rw [houter]
  rw [foldl_removeNote_boxRow, foldl_removeNote_boxRow, foldl_removeNote_boxRow]
  by_cases hq : C ≤ q ∧ q < C + 3
  · by_cases hp : R ≤ p ∧ p < R + 3
    · have hcases : p = R ∨ p = R + 1 ∨ p = R + 2 := by omega
      rcases hcases with h | h | h
      · rw [if_neg (fun hh : p = R + 2 ∧ (C ≤ q ∧ q < C + 3) => by omega),
          if_neg (fun hh : p = R + 1 ∧ (C ≤ q ∧ q < C + 3) => by omega),
          if_pos ⟨by omega, hq⟩, if_pos ⟨hp, hq⟩]
      · rw [if_neg (fun hh : p = R + 2 ∧ (C ≤ q ∧ q < C + 3) => by omega),
          if_pos ⟨h, hq⟩,
          if_neg (fun hh : p = R + 0 ∧ (C ≤ q ∧ q < C + 3) => by omega),
          if_pos ⟨hp, hq⟩]
      · rw [if_pos ⟨h, hq⟩,
          if_neg (fun hh : p = R + 1 ∧ (C ≤ q ∧ q < C + 3) => by omega),
          if_neg (fun hh : p = R + 0 ∧ (C ≤ q ∧ q < C + 3) => by omega),
          if_pos ⟨hp, hq⟩]
    · rw [if_neg (fun hh : p = R + 2 ∧ (C ≤ q ∧ q < C + 3) => by omega),
        if_neg (fun hh : p = R + 1 ∧ (C ≤ q ∧ q < C + 3) => by omega),
        if_neg (fun hh : p = R + 0 ∧ (C ≤ q ∧ q < C + 3) => by omega),
        if_neg (fun hh : (R ≤ p ∧ p < R + 3) ∧ (C ≤ q ∧ q < C + 3) => hp hh.1)]
  · rw [if_neg (fun hh : p = R + 2 ∧ (C ≤ q ∧ q < C + 3) => hq hh.2),
      if_neg (fun hh : p = R + 1 ∧ (C ≤ q ∧ q < C + 3) => hq hh.2),
      if_neg (fun hh : p = R + 0 ∧ (C ≤ q ∧ q < C + 3) => hq hh.2),
      if_neg (fun hh : (R ≤ p ∧ p < R + 3) ∧ (C ≤ q ∧ q < C + 3) => hq hh.2)]

theorem erase_erase_of_nodup {l : List ℕ} (h : l.Nodup) (a : ℕ) :
    (l.erase a).erase a = l.erase a :=
  List.erase_of_not_mem h.not_mem_erase

/-- Pointwise characterisation of `clearNotesForMove`, assuming duplicate-free
note lists (the note sets of the data model): the placed cell's notes become
empty; every other cell of the row, column or box loses exactly the placed
digit; every remaining cell is untouched. -/
theorem clearNotesForMove_eq (r c num : ℕ) (n : Notes)
    (hnd : ∀ p q, (n p q).Nodup) (p q : ℕ) :
    clearNotesForMove r c num n p q =
      if p = r ∧ q = c then []
      else if (p = r ∧ q < 9) ∨ (p < 9 ∧ q = c) ∨
          ((r / 3 * 3 ≤ p ∧ p < r / 3 * 3 + 3) ∧
            (c / 3 * 3 ≤ q ∧ q < c / 3 * 3 + 3))
        then (n p q).erase num
      else n p q := by
  unfold clearNotesForMove
  rw [foldl_removeNote_box,
    foldl_removeNote_col, foldl_removeNote_row, setNote_eq]
  by_cases hS : p = r ∧ q = c
  · rw [if_pos hS, if_pos hS]
    split <;> split <;> split <;> simp
  · rw [if_neg hS, if_neg hS]
    by_cases hB : (r / 3 * 3 ≤ p ∧ p < r / 3 * 3 + 3) ∧
        (c / 3 * 3 ≤ q ∧ q < c / 3 * 3 + 3)
    · rw [if_pos hB, if_pos (Or.inr (Or.inr hB))]
      by_cases hC : p < 9 ∧ q = c
      · rw [if_pos hC]
        by_cases hR : p = r ∧ q < 9
        · rw [if_pos hR, erase_erase_of_nodup ((hnd p q).erase num),
            erase_erase_of_nodup (hnd p q)]
        · rw [if_neg hR, erase_erase_of_nodup (hnd p q)]
      · rw [if_neg hC]
        by_cases hR : p = r ∧ q < 9
        · rw [if_pos hR, erase_erase_of_nodup (hnd p q)]
        · rw [if_neg hR]
    · rw [if_neg hB]
      by_cases hC : p < 9 ∧ q = c
      · rw [if_pos hC, if_pos (Or.inr (Or.inl hC))]
        by_cases hR : p = r ∧ q < 9
        · rw [if_pos hR, erase_erase_of_nodup (hnd p q)]
        · rw [if_neg hR]
      · rw [if_neg hC]
        by_cases hR : p = r ∧ q < 9
        · rw [if_pos hR, if_pos (Or.inl hR)]
        · rw [if_neg hR, if_neg (by
            rintro (h | h | h)
            · exact hR h
            · exact hC h
            · exact hB h)]

theorem checkCompletion_notes (s : GameState) :
    (checkCompletion s).notes = s.notes := (checkCompletion_fields s).2.2.2.1

theorem applyDigit_notes (r c num : ℕ) (s : GameState) :
    (applyDigit r c num s).notes = s.notes := rfl

/-- C5: after a normal-mode correct placement of digit `num` at the selected
non-fixed cell `(r,c)` (note sets being duplicate-free, as the data model
requires), the placed cell's note set is empty, `num` is absent from the note
set of every cell sharing the row, the column or the box, notes of all other
cells are unchanged, and digits other than `num` are never removed from any
peer's notes. -/
theorem correct_move_notes (s : GameState) (r c num : ℕ)
    (hgo : s.isGameOver = false) (hsel : s.selectedCell = some (r, c))
    (hfix : s.initial r c = 0) (hnm : s.isNoteMode = false)
    (hprev : s.grid r c ≠ num) (hnz : num ≠ 0)
    (hcorrect : num = s.solution r c)
    (hnd : ∀ p q, (s.notes p q).Nodup) :
    (inputNumber num s).notes r c = [] ∧
    (∀ p q, p < 9 → q < 9 →
      (p = r ∨ q = c ∨ (p / 3 = r / 3 ∧ q / 3 = c / 3)) →
      num ∉ (inputNumber num s).notes p q) ∧
    (∀ p q, p ≠ r → q ≠ c → ¬(p / 3 = r / 3 ∧ q / 3 = c / 3) →
      (inputNumber num s).notes p q = s.notes p q) ∧
    (∀ p q d, ¬(p = r ∧ q = c) → d ≠ num →
      (d ∈ (inputNumber num s).notes p q ↔ d ∈ s.notes p q)) := by
  have hw : ¬ num ≠ s.solution r c := fun h => h hcorrect
  have hnotes : (inputNumber num s).notes = clearNotesForMove r c num s.notes := by
    simp [inputNumber, hgo, hsel, hfix, hnm, hprev, hnz, hw, checkCompletion_notes, applyDigit_notes]
  refine ⟨?_, ?_, ?_, ?_⟩
  · rw [hnotes, clearNotesForMove_eq r c num s.notes hnd r c,
      if_pos ⟨rfl, rfl⟩]
  · intro p q hp9 hq9 hpeer
    rw [hnotes, clearNotesForMove_eq r c num s.notes hnd p q]
    by_cases hpc : p = r ∧ q = c
    · rw [if_pos hpc]; exact List.not_mem_nil num
    · rw [if_neg hpc, if_pos ?cond]
      · exact (hnd p q).not_mem_erase
      case cond =>
        rcases hpeer with h | h | h
        · exact Or.inl ⟨h, hq9⟩
        · exact Or.inr (Or.inl ⟨hp9, h⟩)
        · exact Or.inr (Or.inr (by omega))
  · intro p q h1 h2 h3
    rw [hnotes, clearNotesForMove_eq r c num s.notes hnd p q,
      if_neg (fun h => h1 h.1), if_neg ?cond2]
    case cond2 =>
      rintro (h | h | h)
      · exact h1 h.1
      · exact h2 h.2
      · exact h3 (by omega)
  · intro p q d hne hd
    rw [hnotes, clearNotesForMove_eq r c num s.notes hnd p q, if_neg hne]
    split
    · exact List.mem_erase_of_ne hd
    · exact Iff.rfl

/-- A session state with a selected empty cell and a couple of notes on a
peer cell, used to witness the note-clearing theorem. -/
def c5s : GameState :=
  { startState "easy" exInit exSol (some (0, 0)) false with
      notes := fun p q => if p = 0 ∧ q = 1 then [1, 4] else [] }

theorem correct_move_notes_witness :
    (inputNumber 1 c5s).notes 0 0 = [] :=
  (correct_move_notes c5s 0 0 1 rfl rfl (by decide) rfl (by decide) (by decide)
    (by decide)
    (fun p q => by
      show (if p = 0 ∧ q = 1 then [1, 4] else []).Nodup
      split <;> decide)).1

theorem checkCompletion_history (s : GameState) :
    (checkCompletion s).history = s.history := (checkCompletion_fields s).2.2.2.2.1

theorem handleMistake_history (s : GameState) :
    (handleMistake s).history = s.history := by
  unfold handleMistake gameOver
  split <;> rfl

theorem selectCell_history (r c : ℕ) (s : GameState) :
    (selectCell r c s).history = s.history := by
  unfold selectCell
  split <;> rfl

theorem inputNumber_history_len (num : ℕ) (s : GameState)
    (h : s.history.length ≤ 21) : (inputNumber num s).history.length ≤ 21 := by
  have hpush : ∀ r c : ℕ, (applyDigit r c num s).history.length ≤ 21 := by
    intro r c
    show ((if s.history.length > 20 then s.history.drop 1 else s.history)
      ++ [({ atype := "input", r := r, c := c, val := num,
             prevVal := s.grid r c } : HistEntry)]).length ≤ 21
    split <;> simp <;> omega
  unfold inputNumber
  split
  · exact h
  split
  · exact h
  split
  · exact h
  split
  · exact h
  split
  · exact h
  split
  · split
    · rw [handleMistake_history]
      exact hpush _ _
    · show (checkCompletion (applyDigit _ _ num s)).history.length ≤ 21
      rw [checkCompletion_history]
      exact hpush _ _
  · exact hpush _ _

theorem erase_history_len (s : GameState) (h : s.history.length ≤ 21) :
    (erase s).history.length ≤ 21 := by
  unfold erase
  split
  · exact h
  split
  · exact h
  split
  · exact h
  · exact inputNumber_history_len 0 s h

theorem undo_history_len (s : GameState) (h : s.history.length ≤ 21) :
    (undo s).history.length ≤ 21 := by
  unfold undo
  split
  · exact h
  split
  · exact h
  · split <;>
    · rw [selectCell_history]
      show s.history.dropLast.length ≤ 21
      simp
      omega

theorem useHint_history_len (s : GameState) (h : s.history.length ≤ 21) :
    (useHint s).history.length ≤ 21 := by
  unfold useHint
  split
  · exact h
  split
  · exact h
  split
  · exact h
  split
  · exact h
  · rw [checkCompletion_history]
    exact h

/-- C6 (amended): the history stack is bounded by 21 entries, not 20: the
source evicts (`shift`) only when the length already EXCEEDS 20, so a push at
length 20 produces 21 entries; at 21 entries the oldest entry is discarded on
push (FIFO), and entries are only ever removed from the top on pop. -/
theorem history_cap :
    (∀ s, Reachable s → s.history.length ≤ 21) ∧
    (∀ (s : GameState) (a : HistEntry), 20 < s.history.length →
      (addToHistory a s).history = s.history.drop 1 ++ [a]) ∧
    (∀ (s : GameState) (a : HistEntry), s.history.length ≤ 20 →
      (addToHistory a s).history = s.history ++ [a]) := by
  refine ⟨?_, ?_, ?_⟩
  · intro s hs
    induction hs with
    | start level init sol sel noteMode hv => simp [startState]
    | step op s hok hs ih =>
      cases op with
      | select r c =>
        show (selectCell r c s).history.length ≤ 21
        rw [selectCell_history]; exact ih
      | inputN n => exact inputNumber_history_len n s ih
      | eraseOp => exact erase_history_len s ih
      | undoOp => exact undo_history_len s ih
      | hintOp => exact useHint_history_len s ih
      | notesOp => exact ih
  · intro s a h
    show (if s.history.length > 20 then s.history.drop 1 else s.history) ++ [a]
      = s.history.drop 1 ++ [a]
    rw [if_pos h]
  · intro s a h
    show (if s.history.length > 20 then s.history.drop 1 else s.history) ++ [a]
      = s.history ++ [a]
    rw [if_neg (by omega)]

theorem history_cap_witness : startEx.history.length ≤ 21 :=
  history_cap.1 startEx
    (Reachable.start "easy" exInit exSol none false exPair_valid)

/-- A session in which the player has made 21 undoable inputs: eleven correct
placements of the digit 1 at (0,0) interleaved with ten erasures. -/
def c6state : GameState :=
  runOps startEx
    [.select 0 0,
     .inputN 1, .eraseOp, .inputN 1, .eraseOp, .inputN 1, .eraseOp,
     .inputN 1, .eraseOp, .inputN 1, .eraseOp, .inputN 1, .eraseOp,
     .inputN 1, .eraseOp, .inputN 1, .eraseOp, .inputN 1, .eraseOp,
     .inputN 1, .eraseOp, .inputN 1]

/-- C6 counterexample: a reachable session whose history stack holds 21
entries, contradicting the claimed cap of 20. -/
theorem history_cap_counterexample :
    Reachable c6state ∧ c6state.history.length = 21 := by
  refine ⟨?_, by decide⟩
  exact reachable_runOps (Reachable.start _ _ _ _ _ exPair_valid) _ (by decide)

theorem checkCompletion_grid (s : GameState) :
    (checkCompletion s).grid = s.grid := (checkCompletion_fields s).2.1

theorem checkCompletion_initial (s : GameState) :
    (checkCompletion s).initial = s.initial := (checkCompletion_fields s).2.2.1

theorem handleMistake_grid (s : GameState) :
    (handleMistake s).grid = s.grid := by
  unfold handleMistake gameOver
  split <;> rfl

theorem handleMistake_initial (s : GameState) :
    (handleMistake s).initial = s.initial := by
  unfold handleMistake gameOver
  split <;> rfl

/-- `inputNumber` writes only to the selected cell, and only when that cell is
not fixed: any cell that is fixed keeps its grid value. -/
theorem inputNumber_fixed_grid (num : ℕ) (s : GameState) (r c : ℕ)
    (hfix : s.initial r c ≠ 0) : (inputNumber num s).grid r c = s.grid r c := by
  unfold inputNumber
  split
  · rfl
  split
  · rfl
  next r' c' _ =>
    split
    · rfl
    next hfree =>
      have hne : ¬(r = r' ∧ c = c') := by
        rintro ⟨rfl, rfl⟩
        exact hfix (not_not.mp hfree)
      split
      · rfl
      split
      · rfl
      split
      · split
        · rw [handleMistake_grid]
          exact setCell_other s.grid r' c' num r c hne
        · show (checkCompletion (applyDigit r' c' num s)).grid r c = s.grid r c
          rw [checkCompletion_grid]
          exact setCell_other s.grid r' c' num r c hne
      · exact setCell_other s.grid r' c' num r c hne

theorem erase_fixed_grid (s : GameState) (r c : ℕ)
    (hfix : s.initial r c ≠ 0) : (erase s).grid r c = s.grid r c := by
  unfold erase
  split
  · rfl
  split
  · rfl
  split
  · rfl
  · exact inputNumber_fixed_grid 0 s r c hfix

/-- `useHint` writes only to a cell that is currently empty. -/
theorem useHint_filled_grid (s : GameState) (r c : ℕ)
    (hfill : s.grid r c ≠ 0) : (useHint s).grid r c = s.grid r c := by
  unfold useHint
  split
  · rfl
  split
  · rfl
  split
  · rfl
  next r' c' _ =>
    split
    · rfl
    next hempty =>
      rw [checkCompletion_grid]
      apply setCell_other
      rintro ⟨rfl, rfl⟩
      exact hfill (not_not.mp hempty)

theorem inputNumber_initial (num : ℕ) (s : GameState) :
    (inputNumber num s).initial = s.initial := by
  unfold inputNumber
  split
  · rfl
  split
  · rfl
  split
  · rfl
  split
  · rfl
  split
  · rfl
  split
  · split
    · rw [handleMistake_initial]; rfl
    · show (checkCompletion (applyDigit _ _ num s)).initial = s.initial
      rw [checkCompletion_initial]; rfl
  · rfl

theorem erase_initial (s : GameState) : (erase s).initial = s.initial := by
  unfold erase
  split
  · rfl
  split
  · rfl
  split
  · rfl
  · exact inputNumber_initial 0 s

theorem selectCell_initial (r c : ℕ) (s : GameState) :
    (selectCell r c s).initial = s.initial := by
  unfold selectCell
  split <;> rfl

theorem undo_initial (s : GameState) : (undo s).initial = s.initial := by
  unfold undo
  split
  · rfl
  split
  · rfl
  · split <;> rw [selectCell_initial]

/-- C7 (amended): moves and erasures never change the grid value of a fixed
cell, hints write only to currently empty cells, and the fixed-cell mask
`initial` is mutated by no operation other than the hint promotion; but full
immutability of fixed cells fails: `undo` writes `prevVal` back without
re-checking fixedness, so a cell promoted to fixed by a hint AFTER the
recorded move can be rewritten (see the counterexample). -/
theorem fixed_cells_spec :
    (∀ (s : GameState) (num r c : ℕ), s.initial r c ≠ 0 →
      (inputNumber num s).grid r c = s.grid r c) ∧
    (∀ (s : GameState) (r c : ℕ), s.initial r c ≠ 0 →
      (erase s).grid r c = s.grid r c) ∧
    (∀ (s : GameState) (r c : ℕ), s.grid r c ≠ 0 →
      (useHint s).grid r c = s.grid r c) ∧
    (∀ (s : GameState) (num : ℕ), (inputNumber num s).initial = s.initial) ∧
    (∀ s : GameState, (erase s).initial = s.initial) ∧
    (∀ s : GameState, (undo s).initial = s.initial) ∧
    (∀ s : GameState, (toggleNotes s).initial = s.initial) :=
  ⟨fun s num r c h => inputNumber_fixed_grid num s r c h,
   fun s r c h => erase_fixed_grid s r c h,
   fun s r c h => useHint_filled_grid s r c h,
   fun s num => inputNumber_initial num s,
   fun s => erase_initial s,
   fun s => undo_initial s,
   fun _ => rfl⟩

theorem fixed_cells_spec_witness :
    (inputNumber 5 (selectCell 1 0 startEx)).grid 1 0
      = (selectCell 1 0 startEx).grid 1 0 :=
  fixed_cells_spec.1 (selectCell 1 0 startEx) 5 1 0 (by decide)

/-- A session in which cell (0,0) was filled and erased (leaving two history
entries for it), five correct moves funded a hint, and the hint promoted
(0,0) to fixed; five undos then rolled the history back to the very first
entry. -/
def c7pre : GameState :=
  runOps startEx
    [.select 0 0, .inputN 1, .eraseOp,
     .select 0 1, .inputN 2, .select 0 2, .inputN 3, .select 0 3, .inputN 4,
     .select 0 4, .inputN 5,
     .select 0 0, .hintOp,
     .undoOp, .undoOp, .undoOp, .undoOp, .undoOp]

/-- C7 counterexample: in the reachable session `c7pre`, cell (0,0) is fixed
(`initial` is nonzero there, by hint promotion) and holds its solution digit,
yet one more `undo` blanks it. -/
theorem fixed_cells_counterexample :
    Reachable c7pre ∧
    (c7pre.initial 0 0 ≠ 0 ∧ c7pre.grid 0 0 = 1 ∧
      (undo c7pre).grid 0 0 = 0) := by
  refine ⟨?_, by decide⟩
  exact reachable_runOps (Reachable.start _ _ _ _ _ exPair_valid) _ (by decide)

/-- C8 (amended): once the game-over flag is set, the move, erase, undo, hint
and cell-selection entry points are all no-ops (they guard on the flag), but
the session state is NOT fully read-only: `toggleNotes()` has no game-over
guard and still flips the note-mode flag (and the winning completion check
itself adds the 10-point bonus after setting the flag). -/
theorem gameover_readonly_spec :
    (∀ (s : GameState) (num : ℕ), s.isGameOver = true → inputNumber num s = s) ∧
    (∀ s : GameState, s.isGameOver = true → erase s = s) ∧
    (∀ s : GameState, s.isGameOver = true → undo s = s) ∧
    (∀ s : GameState, s.isGameOver = true → useHint s = s) ∧
    (∀ (s : GameState) (r c : ℕ), s.isGameOver = true → selectCell r c s = s) ∧
    (∀ s : GameState, (toggleNotes s).isNoteMode = !s.isNoteMode) ∧
    (∀ s : GameState, (checkCompletion s).score = s.score + 10) := by
  refine ⟨?_, ?_, ?_, ?_, ?_, fun s => rfl, fun s => (checkCompletion_fields s).1⟩
  · intro s num h
    unfold inputNumber
    rw [if_pos h]
  · intro s h
    unfold erase
    rw [if_pos h]
  · intro s h
    unfold undo
    rw [if_pos (Or.inr h)]
  · intro s h
    unfold useHint
    rw [if_pos h]
  · intro s r c h
    unfold selectCell
    rw [if_pos h]

/-- A lost session: three wrong digits in a row at (0,0). -/
def c8go : GameState :=
  runOps startEx [.select 0 0, .inputN 5, .inputN 6, .inputN 7]

theorem gameover_readonly_spec_witness : inputNumber 5 c8go = c8go :=
  gameover_readonly_spec.1 c8go 5 (by decide)

/-- C8 counterexample: in the reachable game-over session `c8go`, toggling
note mode still mutates the session state (the note-mode flag flips),
contradicting "no subsequent operation changes any session-state field". -/
theorem gameover_readonly_counterexample :
    Reachable c8go ∧
    (c8go.isGameOver = true ∧
      (toggleNotes c8go).isNoteMode = true ∧ c8go.isNoteMode = false) := by
  refine ⟨?_, by decide⟩
  exact reachable_runOps (Reachable.start _ _ _ _ _ exPair_valid) _ (by decide)

/-- C9 (amended): the note-mode input path checks only that the target cell
is not fixed — it does not require the cell to be empty.  Toggling a fresh
note on a filled, non-fixed, selected cell therefore succeeds and leaves a
nonempty note set on a cell whose grid value is nonzero, so "notes exist only
for empty cells" is not an invariant of the code. -/
theorem notes_on_filled_spec (s : GameState) (r c num : ℕ)
    (hgo : s.isGameOver = false) (hsel : s.selectedCell = some (r, c))
    (hfix : s.initial r c = 0) (hnm : s.isNoteMode = true)
    (hmem : num ∉ s.notes r c) :
    (inputNumber num s).notes r c = s.notes r c ++ [num] ∧
    (inputNumber num s).grid = s.grid := by
  have hin : inputNumber num s =
      { s with notes := toggleNoteValue s.notes r c num } := by
    simp [inputNumber, hgo, hsel, hfix, hnm]
  rw [hin]
  refine ⟨?_, rfl⟩
  show toggleNoteValue s.notes r c num r c = s.notes r c ++ [num]
  unfold toggleNoteValue
  rw [if_neg hmem, setNote_eq, if_pos ⟨rfl, rfl⟩]

/-- A session in which (0,0) was correctly filled and note mode is on. -/
def c9pre : GameState :=
  runOps startEx [.select 0 0, .inputN 1, .notesOp]

theorem notes_on_filled_spec_witness :
    (inputNumber 5 c9pre).notes 0 0 = c9pre.notes 0 0 ++ [5] :=
  (notes_on_filled_spec c9pre 0 0 5 (by decide) (by decide) (by decide)
    (by decide) (by decide)).1

/-- C9 counterexample: a reachable session with a nonzero grid value at (0,0)
and a nonempty note set there — three player inputs suffice (fill the cell
correctly, toggle note mode, enter a note digit). -/
theorem notes_on_filled_counterexample :
    Reachable (inputNumber 5 c9pre) ∧
    ((inputNumber 5 c9pre).grid 0 0 = 1 ∧
      (inputNumber 5 c9pre).notes 0 0 = [5]) := by
  refine ⟨?_, by decide⟩
  exact Reachable.step (.inputN 5) c9pre (by decide)
    (reachable_runOps (Reachable.start _ _ _ _ _ exPair_valid) _ (by decide))

end Sudoku
